import Mathlib

/-!
Verification of the push-notification dispatch pipeline implemented in
`src/http_handler.rs` of the `expo-push-notification-api-rust-on-lambda`
repository.

The Rust handler is shallowly embedded as pure Lean functions.  External
collaborators (the AWS SSM parameter store, the Supabase recipient store,
the Expo delivery provider, and serde's JSON text parser) are modelled as
data carried by an `Env` record: each remote call's outcome is a field of
`Env`, and the handler consumes those outcomes exactly in the order and
with the error mapping of the Rust source.  Every piece of control flow in
`function_handler`, `get_secrets`, `initialize_supabase_client`,
`fetch_expo_push_tokens` and `extract_body` is reproduced.
-/

namespace ExpoPushApi

/-- The error enumeration `ApiError` of the Rust source (`thiserror` enum),
constructor for constructor. -/
inductive ApiError where
  | SsmError
  | MissingSecret (key : String)
  | MissingEnvVar (name : String)
  | SupabaseInitialization
  | SupabaseFetch
  | InvalidApiKey
  | InvalidBody
  | BadRequest (msg : String)
  | PushMessageBuild
deriving DecidableEq, Repr

/-- A JSON value, mirroring `serde_json::Value` (numbers collapsed to `Int`;
no claim depends on number contents). -/
inductive Json where
  | null
  | bool (b : Bool)
  | num (n : Int)
  | str (s : String)
  | arr (elems : List Json)
  | obj (fields : List (String × Json))

/-- `value[key]` of `serde_json`: on an object, the value of the first field
with that key, `Null` when absent; `Null` on any non-object. -/
def json_index (j : Json) (k : String) : Json :=
  match j with
  | .obj fields => ((fields.find? (fun f => f.fst == k)).map (fun f => f.snd)).getD .null
  | _ => .null

/-- `Value::as_str` of `serde_json`: `Some` exactly on JSON strings. -/
def Json.as_str : Json → Option String
  | .str s => some s
  | _ => none

/-- One provider push message, as constructed by
`ExpoPushMessage::builder(vec![token]).title(..).body(..).build()`:
a recipient-token list plus title and body. -/
structure PushMessage where
  recipients : List String
  title : String
  body : String
deriving DecidableEq, Repr

/-- Rust's `str::split(sep)` on character lists: `""` splits to `[""]`,
separators at the ends produce empty segments, exactly as in Rust. -/
def rust_split (sep : Char) : List Char → List (List Char)
  | [] => [[]]
  | c :: cs =>
    if c = sep then [] :: rust_split sep cs
    else
      match rust_split sep cs with
      | [] => [[c]]
      | g :: gs => (c :: g) :: gs

/-- The key-extraction step of `get_secrets`:
`name.split('/').last()` (always present, so the default is never used). -/
def leaf_key (name : String) : String :=
  String.mk ((rust_split '/' name.data).getLastD [])

/-- The secret map built by `get_secrets` from the parameters returned by
`get_parameters_by_path`: for each parameter having both a name and a value,
insert under `leaf_key name` (a later insert shadows an earlier one, as with
`HashMap::insert`).  Parameters missing a name or a value are skipped, as in
the source's `if let (Some(name), Some(value))`. -/
def secrets_of_params (params : List (Option String × Option String)) :
    List (String × String) :=
  params.foldl
    (fun acc p =>
      match p with
      | (some name, some value) => (leaf_key name, value) :: acc
      | _ => acc)
    []

/-- `HashMap::get` on the secret map (head of the list is the newest insert). -/
def secret_get (secrets : List (String × String)) (k : String) : Option String :=
  (secrets.find? (fun e => e.fst == k)).map (fun e => e.snd)

/-- Outcome of one invocation's interactions with the outside world.  Each
field records what the corresponding external collaborator would answer
during this invocation; the handler is a pure function of this record. -/
structure Env where
  /-- The `API_KEY` process environment variable (the source `expect`s it,
  so it is modelled as present). -/
  api_key : String
  /-- Whether `HeaderValue::from_str(&expected_key)` succeeds, i.e. the
  expected key is representable as a header value. -/
  api_key_header_valid : Bool
  /-- The `SSM_PARAMETER_PATH` process environment variable, if set. -/
  ssm_path : Option String
  /-- Result of the bulk `get_parameters_by_path` call: an error, or the
  returned parameters as (name?, value?) pairs. -/
  ssm : Except Unit (List (Option String × Option String))
  /-- Whether `SupabaseClient::new` succeeds on the secrets it is given. -/
  supabase_init_ok : Bool
  /-- Result of the `select("users")` query: an error, or the rows. -/
  supabase_rows : Except Unit (List Json)
  /-- The provider's token-format predicate `Expo::is_expo_push_token`. -/
  is_expo_push_token : String → Bool
  /-- Whether the provider's message builder accepts the given recipient
  list, title and body (`ExpoPushMessage::builder(..).build()` validation;
  on acceptance the built message carries exactly those three). -/
  build_ok : List String → String → String → Bool
  /-- Outcome of `expo.send_push_notifications` on one message. -/
  send : PushMessage → Except Unit Unit

/-- The inbound `lambda_http::Request`, restricted to what the handler
reads: the method string, the `x-api-key` header (if present), and the
body.  The body is modelled after serde's parse: `some j` when the body is
valid text parsing to the JSON value `j`, `none` when it is absent,
non-UTF-8, or unparseable (all the cases `extract_body` maps to
`InvalidBody`). -/
structure Request where
  method : String
  x_api_key : Option String
  body : Option Json

/-- An HTTP response as built by the handler: status code, the
`Content-Type` header, and the serialized JSON body. -/
structure HandlerResponse where
  status : Nat
  content_type : String
  body : String
deriving DecidableEq, Repr

/-- Serialization of `json!({ "error": msg })` for the fixed ASCII messages
used by the handler. -/
def json_error_body (msg : String) : String :=
  "\x7b\"error\":\"" ++ msg ++ "\"\x7d"

/-- Serialization of `json!({ "message": msg })` for the fixed messages
used by the handler. -/
def json_message_body (msg : String) : String :=
  "\x7b\"message\":\"" ++ msg ++ "\"\x7d"

/-- `create_error_response` of the source: a JSON response
`{ "error": message }` with the given status. -/
def create_error_response (status : Nat) (msg : String) : HandlerResponse :=
  ⟨status, "application/json", json_error_body msg⟩

/-- A `200` success response `{ "message": msg }`, as built inline in the
source. -/
def ok_response (msg : String) : HandlerResponse :=
  ⟨200, "application/json", json_message_body msg⟩

/-- What one invocation of the handler produces: the returned value
(`.error e` models an `ApiError` propagated with `?` into the framework's
`Error`, `.ok r` an actual HTTP response), together with the messages that
reached the build stage's output and the messages submitted to the
dispatcher.  The two lists let theorems state "no message was built" and
"the dispatcher was never invoked". -/
structure HandlerOutcome where
  result : Except ApiError HandlerResponse
  built : List PushMessage
  dispatched : List PushMessage

/-- `get_secrets` of the source, as a function of the environment record:
missing `SSM_PARAMETER_PATH` gives `MissingEnvVar`, a failed store call
gives `SsmError`, and a successful call yields the leaf-keyed secret map. -/
def get_secrets (env : Env) : Except ApiError (List (String × String)) :=
  match env.ssm_path with
  | none => .error (.MissingEnvVar "SSM_PARAMETER_PATH")
  | some _ =>
    match env.ssm with
    | .error _ => .error .SsmError
    | .ok params => .ok (secrets_of_params params)

/-- `initialize_supabase_client` of the source: requires the
`supabase-url` and `supabase-key` secrets (each absence is a
`MissingSecret` naming it), then client construction may fail with
`SupabaseInitialization`. -/
def init_supabase_client (env : Env) (secrets : List (String × String)) :
    Except ApiError Unit :=
  match secret_get secrets "supabase-url" with
  | none => .error (.MissingSecret "supabase-url")
  | some _ =>
    match secret_get secrets "supabase-key" with
    | none => .error (.MissingSecret "supabase-key")
    | some _ =>
      if env.supabase_init_ok then .ok () else .error .SupabaseInitialization

/-- The pure row-to-token extraction inside `fetch_expo_push_tokens`:
`rows.iter().filter_map(|row| row["expo_push_token"].as_str().map(..)).collect()`. -/
def extract_tokens (rows : List Json) : List String :=
  rows.filterMap (fun row => (json_index row "expo_push_token").as_str)

/-- `fetch_expo_push_tokens` of the source: a failed query gives
`SupabaseFetch`; otherwise the token-field values of the rows that have
one, in row order. -/
def fetch_expo_push_tokens (env : Env) : Except ApiError (List String) :=
  match env.supabase_rows with
  | .error _ => .error .SupabaseFetch
  | .ok rows => .ok (extract_tokens rows)

/-- `extract_body` of the source.  The text/binary decoding and the
serde JSON parse are external; the request carries their combined result,
and every failure case of the source maps to `InvalidBody`. -/
def extract_body (req : Request) : Except ApiError Json :=
  match req.body with
  | none => .error .InvalidBody
  | some j => .ok j

/-- The provider's message builder
`ExpoPushMessage::builder(to).title(title).body(body).build()`: validation
is the abstract `Env.build_ok`; on success the message carries exactly the
given recipient list, title and body. -/
def build_message (env : Env) (tos : List String) (title body : String) :
    Except Unit PushMessage :=
  if env.build_ok tos title body then .ok ⟨tos, title, body⟩ else .error ()

/-- Rust's `collect::<Result<Vec<_>, _>>()`: all results, or the first
error. -/
def collect_results (f : α → Except ε β) : List α → Except ε (List β)
  | [] => .ok []
  | a :: as =>
    match f a with
    | .error e => .error e
    | .ok b =>
      match collect_results f as with
      | .error e => .error e
      | .ok bs => .ok (b :: bs)

/-- Is an `Except` value an error (`Result::is_err`)? -/
def except_is_err : Except ε α → Bool
  | .error _ => true
  | .ok _ => false

/-- Step 5 of `function_handler`: send every message (`join_all` over the
send futures — outcomes in input-message order) and aggregate: any failed
outcome makes the whole batch a 500, otherwise 200. -/
def dispatch_all (env : Env) (messages : List PushMessage) : HandlerOutcome :=
  let results := messages.map env.send
  if results.any except_is_err then
    ⟨.ok (create_error_response 500 "Failed to send some push notifications"),
      messages, messages⟩
  else
    ⟨.ok (ok_response "Push notifications sent successfully"),
      messages, messages⟩

/-- Steps 4–5 of `function_handler`, from the resolved token list on:
empty list short-circuits to the no-op 200; otherwise one message is built
per token (a single build failure aborts the invocation with
`PushMessageBuild`), and the batch is dispatched. -/
def notify (env : Env) (title body : String) (tokens : List String) :
    HandlerOutcome :=
  if tokens.isEmpty then
    ⟨.ok (ok_response "No push tokens found."), [], []⟩
  else
    match collect_results (fun token => build_message env [token] title body) tokens with
    | .error _ => ⟨.error .PushMessageBuild, [], []⟩
    | .ok messages => dispatch_all env messages

/-- The `"GET"` arm of `function_handler`'s method match: fixed Japanese
title and body, Supabase client initialization, token fetch, then the
common tail. -/
def get_branch (env : Env) (secrets : List (String × String)) : HandlerOutcome :=
  match init_supabase_client env secrets with
  | .error e => ⟨.error e, [], []⟩
  | .ok _ =>
    match fetch_expo_push_tokens env with
    | .error e => ⟨.error e, [], []⟩
    | .ok tokens => notify env "25日だよ" "パートナーに請求しよう" tokens

/-- The `"POST"` arm of `function_handler`'s method match: body extraction,
the three field checks in source order (`title`, `body`,
`expo_push_token`), the provider token-format check (invalid token is a
direct 400), then the common tail on the single-token list. -/
def post_branch (env : Env) (event : Request) : HandlerOutcome :=
  match extract_body event with
  | .error e => ⟨.error e, [], []⟩
  | .ok json_body =>
    match (json_index json_body "title").as_str with
    | none => ⟨.error (.BadRequest "Title is required"), [], []⟩
    | some title =>
      match (json_index json_body "body").as_str with
      | none => ⟨.error (.BadRequest "Body is required"), [], []⟩
      | some body =>
        match (json_index json_body "expo_push_token").as_str with
        | none => ⟨.error (.BadRequest "expo_push_token is required"), [], []⟩
        | some token =>
          if env.is_expo_push_token token then
            notify env title body [token]
          else
            ⟨.ok (create_error_response 400 "Invalid expo push token"), [], []⟩

/-- `function_handler` of the source, step for step:
1. API-key check (an unrepresentable expected key propagates
   `InvalidApiKey`; a missing or mismatching `x-api-key` header is a
   direct 403);
2. secret fetch and the `expo-access-token` lookup;
3. method branch — `get_branch`, `post_branch`, or a direct 405;
4.–5. `notify` on the resolved token list (inside the branches). -/
def function_handler (env : Env) (event : Request) : HandlerOutcome :=
  if env.api_key_header_valid = false then
    ⟨.error .InvalidApiKey, [], []⟩
  else if event.x_api_key ≠ some env.api_key then
    ⟨.ok (create_error_response 403 "Forbidden: Invalid API Key"), [], []⟩
  else
    match get_secrets env with
    | .error e => ⟨.error e, [], []⟩
    | .ok secrets =>
      match secret_get secrets "expo-access-token" with
      | none => ⟨.error (.MissingSecret "expo-access-token"), [], []⟩
      | some _ =>
        match event.method with
        | "GET" => get_branch env secrets
        | "POST" => post_branch env event
        | _ => ⟨.ok (create_error_response 405 "Method not allowed"), [], []⟩

/-- The invocation passes the API-key gate and the secret-resolution
stage: the expected key is header-representable, the `x-api-key` header
matches, `SSM_PARAMETER_PATH` is set, the bulk read succeeds returning
`params`, and the `expo-access-token` secret is present. -/
def reaches_method_branch (env : Env) (req : Request)
    (params : List (Option String × Option String)) : Prop :=
  env.api_key_header_valid = true ∧
  req.x_api_key = some env.api_key ∧
  (∃ path, env.ssm_path = some path) ∧
  env.ssm = .ok params ∧
  (∃ tok, secret_get (secrets_of_params params) "expo-access-token" = some tok)

/-- The store interactions of the GET branch succeed, the query returning
`rows`: both Supabase secrets are present, client construction succeeds,
and the select succeeds. -/
def store_ok (env : Env) (params : List (Option String × Option String))
    (rows : List Json) : Prop :=
  (∃ u, secret_get (secrets_of_params params) "supabase-url" = some u) ∧
  (∃ k, secret_get (secrets_of_params params) "supabase-key" = some k) ∧
  env.supabase_init_ok = true ∧
  env.supabase_rows = .ok rows

/-! ### Concrete fixtures used to instantiate the theorems -/

/-- A parameter-store reply carrying the three required secrets under one
path, as in the source's own example (`/expo-push-api/...`). -/
def params0 : List (Option String × Option String) :=
  [(some "/expo-push-api/supabase-url", some "https://db.example"),
   (some "/expo-push-api/supabase-key", some "service-key"),
   (some "/expo-push-api/expo-access-token", some "expo-token")]

/-- Two store rows: one with a token field, one without. -/
def rows0 : List Json :=
  [Json.obj [("expo_push_token", Json.str "ExponentPushToken[aaa]")],
   Json.obj [("name", Json.str "nobody")]]

/-- An environment in which every external collaborator cooperates. -/
def env0 : Env :=
  { api_key := "secret-key"
    api_key_header_valid := true
    ssm_path := some "/expo-push-api"
    ssm := .ok params0
    supabase_init_ok := true
    supabase_rows := .ok rows0
    is_expo_push_token := fun _ => true
    build_ok := fun _ _ _ => true
    send := fun _ => .ok () }

/-- Like `env0`, but the provider rejects every token format. -/
def env_reject_token : Env :=
  { env0 with is_expo_push_token := fun _ => false }

/-- Like `env0`, but the provider's message builder rejects everything. -/
def env_reject_build : Env :=
  { env0 with build_ok := fun _ _ _ => false }

/-- Like `env0`, but the recipient query returns no rows. -/
def env_empty_rows : Env :=
  { env0 with supabase_rows := .ok [] }

/-- A store-backed (GET) trigger with the right key. -/
def req_get : Request := ⟨"GET", some "secret-key", none⟩

/-- An ad-hoc (POST) request whose body carries `title`, `body` and
`expo_push_token` (and no `push_token` field). -/
def req_post_ok : Request :=
  ⟨"POST", some "secret-key",
    some (Json.obj
      [("title", Json.str "Hi"), ("body", Json.str "Test"),
       ("expo_push_token", Json.str "ExponentPushToken[abc]")])⟩

/-- An ad-hoc (POST) request whose body lacks `title`. -/
def req_post_no_title : Request :=
  ⟨"POST", some "secret-key",
    some (Json.obj
      [("body", Json.str "Test"), ("expo_push_token", Json.str "tok")])⟩

/-- An ad-hoc (POST) request whose body has only `title` (both `body` and
the token field missing). -/
def req_post_title_only : Request :=
  ⟨"POST", some "secret-key", some (Json.obj [("title", Json.str "Hi")])⟩

/-- A request with no `x-api-key` header at all. -/
def req_no_key : Request := ⟨"POST", none, none⟩

/-! ### Helper lemmas -/

/-- `any` over a mapped list tests the composite predicate. -/
theorem any_map_comp (f : α → β) (p : β → Bool) :
    ∀ l : List α, (l.map f).any p = l.any (fun a => p (f a))
  | [] => rfl
  | a :: l => by
    rw [List.map_cons, List.any_cons, List.any_cons, any_map_comp f p l]

/-- Once the API-key gate and secret resolution succeed, the handler is
the method branch. -/
theorem handler_reduces_to_method_branch (env : Env) (req : Request)
    (params : List (Option String × Option String))
    (h : reaches_method_branch env req params) :
    function_handler env req =
      match req.method with
      | "GET" => get_branch env (secrets_of_params params)
      | "POST" => post_branch env req
      | _ => ⟨.ok (create_error_response 405 "Method not allowed"), [], []⟩ := by
  obtain ⟨hval, hkey, ⟨path, hpath⟩, hssm, tok, htok⟩ := h
  simp [function_handler, get_secrets, hval, hkey, hpath, hssm, htok]

/-- On a GET invocation whose store interactions succeed, the handler is
`notify` with the fixed title/body and the extracted tokens. -/
theorem handler_get_eq (env : Env) (req : Request)
    (params : List (Option String × Option String)) (rows : List Json)
    (h : reaches_method_branch env req params)
    (hs : store_ok env params rows)
    (hm : req.method = "GET") :
    function_handler env req =
      notify env "25日だよ" "パートナーに請求しよう" (extract_tokens rows) := by
  obtain ⟨⟨u, hu⟩, ⟨k, hk⟩, hinit, hrows⟩ := hs
  rw [handler_reduces_to_method_branch env req params h, hm]
  simp [get_branch, init_supabase_client, fetch_expo_push_tokens, hu, hk, hinit, hrows]

/-- On a POST invocation that passes the gate and secret resolution, the
handler is the POST branch. -/
theorem handler_post_eq (env : Env) (req : Request)
    (params : List (Option String × Option String))
    (h : reaches_method_branch env req params)
    (hm : req.method = "POST") :
    function_handler env req = post_branch env req := by
  rw [handler_reduces_to_method_branch env req params h, hm]
  rfl

/-! ### Claims -/

/-- C4: any request whose `x-api-key` header is absent or differs from the
expected key is answered with HTTP 403 and body
`{"error": "Forbidden: Invalid API Key"}`, whatever its method and body,
and nothing downstream runs. -/
theorem claim_C4_forbidden (env : Env) (req : Request)
    (hval : env.api_key_header_valid = true)
    (hne : req.x_api_key ≠ some env.api_key) :
    function_handler env req =
      ⟨.ok (create_error_response 403 "Forbidden: Invalid API Key"), [], []⟩ := by
  simp [function_handler, hval, hne]

/-- C4 witness: a keyless POST against the all-cooperating environment. -/
theorem claim_C4_witness :
    function_handler env0 req_no_key =
      ⟨.ok (create_error_response 403 "Forbidden: Invalid API Key"), [], []⟩ :=
  claim_C4_forbidden env0 req_no_key rfl (by decide)

/-- C2: for a dispatched batch, one failing send outcome makes the
response `500 {"error": "Failed to send some push notifications"}`;
all-successful outcomes make it
`200 {"message": "Push notifications sent successfully"}`. -/
theorem claim_C2_dispatch_aggregation (env : Env) (msgs : List PushMessage) :
    ((∃ m ∈ msgs, except_is_err (env.send m) = true) →
      dispatch_all env msgs =
        ⟨.ok (create_error_response 500 "Failed to send some push notifications"),
          msgs, msgs⟩)
    ∧ ((∀ m ∈ msgs, except_is_err (env.send m) = false) →
      dispatch_all env msgs =
        ⟨.ok (ok_response "Push notifications sent successfully"), msgs, msgs⟩) := by
  constructor
  · rintro ⟨m, hm, he⟩
    have hany : (msgs.map env.send).any except_is_err = true := by
      rw [any_map_comp, List.any_eq_true]
      exact ⟨m, hm, he⟩
    simp [dispatch_all, hany]
  · intro hall
    have hany : (msgs.map env.send).any except_is_err = false := by
      rw [any_map_comp, List.any_eq_false]
      intro m hm
      simp [hall m hm]
    simp [dispatch_all, hany]

/-- C2 witness: a one-message batch whose send succeeds yields the 200
success response. -/
theorem claim_C2_witness :
    dispatch_all env0 [⟨["ExponentPushToken[abc]"], "Hi", "Test"⟩] =
      ⟨.ok (ok_response "Push notifications sent successfully"),
        [⟨["ExponentPushToken[abc]"], "Hi", "Test"⟩],
        [⟨["ExponentPushToken[abc]"], "Hi", "Test"⟩]⟩ :=
  (claim_C2_dispatch_aggregation env0 _).2 (fun _ _ => rfl)

/-- C3: an empty resolved recipient list is answered with
`200 {"message": "No push tokens found."}`, no message is built and the
dispatcher is never invoked — both at the `notify` stage (reached by both
variants) and for a full store-backed invocation whose rows yield no
token. -/
theorem claim_C3_empty_recipients :
    (∀ (env : Env) (title body : String),
      notify env title body [] =
        ⟨.ok (ok_response "No push tokens found."), [], []⟩)
    ∧ (∀ (env : Env) (req : Request)
        (params : List (Option String × Option String)) (rows : List Json),
        reaches_method_branch env req params → store_ok env params rows →
        req.method = "GET" → extract_tokens rows = [] →
        function_handler env req =
          ⟨.ok (ok_response "No push tokens found."), [], []⟩) := by
  constructor
  · intro env title body
    simp [notify]
  · intro env req params rows h hs hm hrows
    rw [handler_get_eq env req params rows h hs hm, hrows]
    simp [notify]

/-- C3 witness: a GET invocation over an empty recipient table. -/
theorem claim_C3_witness :
    function_handler env_empty_rows req_get =
      ⟨.ok (ok_response "No push tokens found."), [], []⟩ :=
  claim_C3_empty_recipients.2 env_empty_rows req_get params0 []
    ⟨rfl, rfl, ⟨"/expo-push-api", rfl⟩, rfl, "expo-token", rfl⟩
    ⟨⟨"https://db.example", rfl⟩, ⟨"service-key", rfl⟩, rfl, rfl⟩ rfl rfl

/-- C1 (counterexample), refuting both load-bearing parts of the claim at
concrete inputs.  First part — the field name: `req_post_ok` has `title`,
`body` and `expo_push_token` but NO `push_token` field, so by the claim
(whose third required field is `push_token`) the invocation should fail
with a BadRequest naming `push_token` and attempt no dispatch; instead the
code accepts it, dispatches one message and answers 200.  Second part —
the 400-class surfacing: `req_post_title_only` is missing `body`, a field
the claim and the code agree is required, and the claim says the failure is
surfaced as a 400-class response; instead the code propagates
`ApiError::BadRequest` with `?` as a framework error — the result is
`.error (.BadRequest "Body is required")`, not an `.ok` response with a
400-class status (the handler builds a 400 response only for the
token-format check). -/
theorem claim_C1_counterexample :
    ((function_handler env0 req_post_ok).result =
        .ok (ok_response "Push notifications sent successfully")
      ∧ (function_handler env0 req_post_ok).dispatched =
        [⟨["ExponentPushToken[abc]"], "Hi", "Test"⟩])
    ∧ (function_handler env0 req_post_title_only).result =
        .error (.BadRequest "Body is required") := by
  exact ⟨⟨rfl, rfl⟩, rfl⟩

/-- C1 (amended): the three required string fields of an ad-hoc POST body
are `title`, `body` and `expo_push_token`; a missing or non-string value
for any of them fails the invocation with a `BadRequest` error identifying
that field, and no message is built and no dispatch is attempted. -/
theorem claim_C1_required_fields (env : Env) (req : Request)
    (params : List (Option String × Option String)) (j : Json)
    (h : reaches_method_branch env req params)
    (hm : req.method = "POST") (hb : req.body = some j) :
    ((json_index j "title").as_str = none →
      function_handler env req =
        ⟨.error (.BadRequest "Title is required"), [], []⟩)
    ∧ (∀ t, (json_index j "title").as_str = some t →
        (json_index j "body").as_str = none →
        function_handler env req =
          ⟨.error (.BadRequest "Body is required"), [], []⟩)
    ∧ (∀ t b, (json_index j "title").as_str = some t →
        (json_index j "body").as_str = some b →
        (json_index j "expo_push_token").as_str = none →
        function_handler env req =
          ⟨.error (.BadRequest "expo_push_token is required"), [], []⟩) := by
  have hp := handler_post_eq env req params h hm
  refine ⟨fun h1 => ?_, fun t h1 h2 => ?_, fun t b h1 h2 h3 => ?_⟩ <;>
    rw [hp] <;> simp [post_branch, extract_body, hb, h1]
  · rw [h2]
  · rw [h2]
    simp [h3]

/-- C1 witness: a body lacking `title` fails with the Title BadRequest. -/
theorem claim_C1_witness :
    function_handler env0 req_post_no_title =
      ⟨.error (.BadRequest "Title is required"), [], []⟩ :=
  (claim_C1_required_fields env0 req_post_no_title params0
    (Json.obj [("body", Json.str "Test"), ("expo_push_token", Json.str "tok")])
    ⟨rfl, rfl, ⟨"/expo-push-api", rfl⟩, rfl, "expo-token", rfl⟩ rfl rfl).1 rfl

/-- C7: an ad-hoc POST whose token fails the provider's token-format
predicate is answered directly with
`400 {"error": "Invalid expo push token"}` — an `Ok` response, not a
propagated pipeline error — and no message is built or dispatched. -/
theorem claim_C7_invalid_token_direct_400 (env : Env) (req : Request)
    (params : List (Option String × Option String)) (j : Json)
    (tt bb tok : String)
    (h : reaches_method_branch env req params)
    (hm : req.method = "POST") (hb : req.body = some j)
    (h1 : (json_index j "title").as_str = some tt)
    (h2 : (json_index j "body").as_str = some bb)
    (h3 : (json_index j "expo_push_token").as_str = some tok)
    (hbad : env.is_expo_push_token tok = false) :
    function_handler env req =
      ⟨.ok (create_error_response 400 "Invalid expo push token"), [], []⟩ := by
  rw [handler_post_eq env req params h hm]
  simp [post_branch, extract_body, hb, h1]
  rw [h2]
  simp [h3, hbad]

/-- C7 witness: the provider rejecting the token format on an otherwise
valid POST yields the direct 400. -/
theorem claim_C7_witness :
    function_handler env_reject_token req_post_ok =
      ⟨.ok (create_error_response 400 "Invalid expo push token"), [], []⟩ :=
  claim_C7_invalid_token_direct_400 env_reject_token req_post_ok params0
    (Json.obj
      [("title", Json.str "Hi"), ("body", Json.str "Test"),
       ("expo_push_token", Json.str "ExponentPushToken[abc]")])
    "Hi" "Test" "ExponentPushToken[abc]"
    ⟨rfl, rfl, ⟨"/expo-push-api", rfl⟩, rfl, "expo-token", rfl⟩
    rfl rfl rfl rfl rfl rfl

/-- C10: when more than one required POST field is missing, the error
names exactly the first missing one in the fixed order `title`, `body`,
then the token field: with `title` missing the report is always Title
(whatever the later fields), and with `title` present and `body` missing
the report is always Body (whether or not the token field is present). -/
theorem claim_C10_first_missing_field_reported (env : Env) (req : Request)
    (params : List (Option String × Option String)) (j : Json)
    (h : reaches_method_branch env req params)
    (hm : req.method = "POST") (hb : req.body = some j) :
    ((json_index j "title").as_str = none →
      (json_index j "body").as_str = none →
      function_handler env req =
        ⟨.error (.BadRequest "Title is required"), [], []⟩)
    ∧ ((json_index j "title").as_str = none →
      (json_index j "expo_push_token").as_str = none →
      function_handler env req =
        ⟨.error (.BadRequest "Title is required"), [], []⟩)
    ∧ (∀ t, (json_index j "title").as_str = some t →
        (json_index j "body").as_str = none →
        (json_index j "expo_push_token").as_str = none →
        function_handler env req =
          ⟨.error (.BadRequest "Body is required"), [], []⟩) := by
  have hp := handler_post_eq env req params h hm
  refine ⟨fun h1 _ => ?_, fun h1 _ => ?_, fun t h1 h2 _ => ?_⟩ <;>
    rw [hp] <;> simp [post_branch, extract_body, hb, h1]
  rw [h2]

/-- C10 witness: a body with only `title` reports the Body field, not the
token field. -/
theorem claim_C10_witness :
    function_handler env0 req_post_title_only =
      ⟨.error (.BadRequest "Body is required"), [], []⟩ :=
  (claim_C10_first_missing_field_reported env0 req_post_title_only params0
    (Json.obj [("title", Json.str "Hi")])
    ⟨rfl, rfl, ⟨"/expo-push-api", rfl⟩, rfl, "expo-token", rfl⟩ rfl rfl).2.2
    "Hi" rfl rfl rfl

/-- Every element of a successful `collect_results` comes from some input
element. -/
theorem collect_results_ok_mem {f : α → Except ε β} :
    ∀ {l : List α} {bs : List β}, collect_results f l = .ok bs →
      ∀ b ∈ bs, ∃ a ∈ l, f a = .ok b := by
  intro l
  induction l with
  | nil =>
    intro bs hc b hbs
    simp [collect_results] at hc
    subst hc
    simp at hbs
  | cons a as ih =>
    intro bs hc b hbs
    unfold collect_results at hc
    cases hfa : f a with
    | error e => rw [hfa] at hc; exact absurd hc (by simp)
    | ok b0 =>
      rw [hfa] at hc
      cases hrec : collect_results f as with
      | error e => rw [hrec] at hc; exact absurd hc (by simp)
      | ok bs0 =>
        rw [hrec] at hc
        simp at hc
        subst hc
        rcases hbs with _ | hbs
        · exact ⟨a, List.mem_cons_self a as, hfa⟩
        · obtain ⟨a1, ha1, hfa1⟩ := ih hrec b (by assumption)
          exact ⟨a1, List.mem_cons_of_mem a ha1, hfa1⟩

/-- If every input succeeds pointwise, `collect_results` succeeds with the
mapped list. -/
theorem collect_results_ok_of_all {f : α → Except ε β} {g : α → β} :
    ∀ {l : List α}, (∀ a ∈ l, f a = .ok (g a)) →
      collect_results f l = .ok (l.map g) := by
  intro l
  induction l with
  | nil => intro _; rfl
  | cons a as ih =>
    intro hall
    unfold collect_results
    rw [hall a (List.mem_cons_self a as),
      ih (fun x hx => hall x (List.mem_cons_of_mem a hx))]
    rfl

/-- If any input fails, `collect_results` fails. -/
theorem collect_results_error_of_mem (f : α → Except ε β) {a : α} {e : ε} :
    ∀ {l : List α}, a ∈ l → f a = .error e →
      ∃ e1, collect_results f l = .error e1 := by
  intro l
  induction l with
  | nil => intro ha _; simp at ha
  | cons x xs ih =>
    intro ha hfa
    unfold collect_results
    rcases List.mem_cons.mp ha with rfl | ha1
    · rw [hfa]; exact ⟨e, rfl⟩
    · cases hfx : f x with
      | error e0 => exact ⟨e0, rfl⟩
      | ok b =>
        obtain ⟨e1, hc⟩ := ih ha1 hfa
        rw [hc]
        exact ⟨e1, rfl⟩

/-- `dispatch_all` submits exactly its input batch to the dispatcher. -/
theorem dispatch_all_dispatched (env : Env) (msgs : List PushMessage) :
    (dispatch_all env msgs).dispatched = msgs := by
  cases h : (msgs.map env.send).any except_is_err <;> simp [dispatch_all, h]

/-- Every dispatched message of a `notify` run carries the title and body
`notify` was given. -/
theorem notify_dispatched_title_body (env : Env) (t b : String)
    (tokens : List String) (m : PushMessage)
    (hm : m ∈ (notify env t b tokens).dispatched) : m.title = t ∧ m.body = b := by
  unfold notify at hm
  cases hemp : tokens.isEmpty with
  | true => rw [hemp] at hm; simp at hm
  | false =>
    rw [hemp] at hm
    simp at hm
    cases hc : collect_results (fun token => build_message env [token] t b) tokens with
    | error e => rw [hc] at hm; simp at hm
    | ok messages =>
      rw [hc] at hm
      simp [dispatch_all_dispatched] at hm
      obtain ⟨tok, _, hbm⟩ := collect_results_ok_mem hc m hm
      unfold build_message at hbm
      cases hb : env.build_ok [tok] t b with
      | true =>
        rw [hb] at hbm
        simp at hbm
        rw [← hbm]
        exact ⟨rfl, rfl⟩
      | false => rw [hb] at hbm; simp at hbm

/-- C8: for a non-empty token list reaching the build stage, a single
rejected build fails the whole invocation with `PushMessageBuild` and
nothing is dispatched; when every per-token build is accepted, exactly one
message per token (carrying that token, the title and the body) is handed
to the dispatcher. -/
theorem claim_C8_build_all_or_nothing (env : Env) (t b : String)
    (tokens : List String) (hne : tokens ≠ []) :
    ((∃ tok ∈ tokens, env.build_ok [tok] t b = false) →
      notify env t b tokens = ⟨.error .PushMessageBuild, [], []⟩)
    ∧ ((∀ tok ∈ tokens, env.build_ok [tok] t b = true) →
      notify env t b tokens =
        dispatch_all env (tokens.map (fun tok => ⟨[tok], t, b⟩))) := by
  have hemp : tokens.isEmpty = false := by
    simp [List.isEmpty_eq_false, hne]
  constructor
  · rintro ⟨tok, htok, hfail⟩
    have hbuild : build_message env [tok] t b = .error () := by
      simp [build_message, hfail]
    obtain ⟨e1, hc⟩ :=
      collect_results_error_of_mem (fun tok => build_message env [tok] t b)
        htok hbuild
    simp [notify, hemp, hc]
  · intro hall
    have hc : collect_results (fun tok => build_message env [tok] t b) tokens =
        .ok (tokens.map (fun tok => ⟨[tok], t, b⟩)) :=
      collect_results_ok_of_all (fun a ha => by simp [build_message, hall a ha])
    simp [notify, hemp, hc]

/-- C8 witness: a builder that rejects the single token aborts the batch
with `PushMessageBuild` and dispatches nothing. -/
theorem claim_C8_witness :
    notify env_reject_build "Hi" "Test" ["ExponentPushToken[abc]"] =
      ⟨.error .PushMessageBuild, [], []⟩ :=
  (claim_C8_build_all_or_nothing env_reject_build "Hi" "Test"
    ["ExponentPushToken[abc]"] (by decide)).1
    ⟨"ExponentPushToken[abc]", by decide, rfl⟩

/-- C9: a store-backed (GET) invocation runs the pipeline with exactly the
fixed literals `"25日だよ"` as title and `"パートナーに請求しよう"` as
body — whatever the request carried — so every dispatched message bears
them. -/
theorem claim_C9_fixed_title_body (env : Env) (req : Request)
    (params : List (Option String × Option String)) (rows : List Json)
    (h : reaches_method_branch env req params)
    (hs : store_ok env params rows)
    (hm : req.method = "GET") :
    function_handler env req =
      notify env "25日だよ" "パートナーに請求しよう" (extract_tokens rows)
    ∧ ∀ m ∈ (function_handler env req).dispatched,
        m.title = "25日だよ" ∧ m.body = "パートナーに請求しよう" := by
  have he := handler_get_eq env req params rows h hs hm
  refine ⟨he, fun m hmem => ?_⟩
  rw [he] at hmem
  exact notify_dispatched_title_body env _ _ _ m hmem

/-- C9 witness: the cooperating environment on a GET trigger. -/
theorem claim_C9_witness :
    function_handler env0 req_get =
      notify env0 "25日だよ" "パートナーに請求しよう" (extract_tokens rows0) :=
  (claim_C9_fixed_title_body env0 req_get params0 rows0
    ⟨rfl, rfl, ⟨"/expo-push-api", rfl⟩, rfl, "expo-token", rfl⟩
    ⟨⟨"https://db.example", rfl⟩, ⟨"service-key", rfl⟩, rfl, rfl⟩ rfl).1

/-- Rust's `split` never yields an empty segment list. -/
theorem rust_split_ne_nil (sep : Char) : ∀ l : List Char, rust_split sep l ≠ []
  | [] => by simp [rust_split]
  | c :: cs => by
    unfold rust_split
    by_cases h : c = sep
    · simp [h]
    · simp only [h, if_false]
      cases hr : rust_split sep cs <;> simp

/-- On input without the separator, `split` yields the single segment. -/
theorem rust_split_of_not_mem (sep : Char) :
    ∀ {l : List Char}, sep ∉ l → rust_split sep l = [l] := by
  intro l
  induction l with
  | nil => intro _; rfl
  | cons c cs ih =>
    intro h
    have hc : ¬ c = sep := fun e => h (by rw [e]; exact List.mem_cons_self sep cs)
    have hcs : sep ∉ cs := fun e => h (List.mem_cons_of_mem c e)
    unfold rust_split
    simp only [hc, if_false, ih hcs]

/-- Unfolding equation of `rust_split` at a cons. -/
theorem rust_split_cons (sep c : Char) (cs : List Char) :
    rust_split sep (c :: cs) =
      if c = sep then [] :: rust_split sep cs
      else
        match rust_split sep cs with
        | [] => [[c]]
        | g :: gs => (c :: g) :: gs := rfl

/-- Unfolding equation of `rust_split` at a separator head. -/
theorem rust_split_cons_sep (sep : Char) (cs : List Char) :
    rust_split sep (sep :: cs) = [] :: rust_split sep cs := by
  rw [rust_split_cons, if_pos rfl]

/-- Unfolding equation of `rust_split` at a non-separator head. -/
theorem rust_split_cons_ne (sep c : Char) (cs : List Char) (h : ¬ c = sep) :
    rust_split sep (c :: cs) =
      match rust_split sep cs with
      | [] => [[c]]
      | g :: gs => (c :: g) :: gs := by
  rw [rust_split_cons, if_neg h]

/-- A separator splits the segment lists of the two sides apart. -/
theorem rust_split_append_sep (sep : Char) :
    ∀ (xs ys : List Char),
      rust_split sep (xs ++ sep :: ys) = rust_split sep xs ++ rust_split sep ys := by
  intro xs ys
  induction xs with
  | nil => simp [rust_split_cons_sep, rust_split]
  | cons x xs ih =>
    rw [List.cons_append]
    by_cases h : x = sep
    · subst h
      rw [rust_split_cons_sep, rust_split_cons_sep, ih, List.cons_append]
    · rw [rust_split_cons_ne sep x _ h, rust_split_cons_ne sep x xs h, ih]
      cases hx : rust_split sep xs with
      | nil => exact absurd hx (rust_split_ne_nil sep xs)
      | cons g gs => simp

/-- `getLastD` over an append lands in the non-empty right part. -/
theorem getLastD_append_of_ne_nil {A B : List α} (d : α) (h : B ≠ []) :
    (A ++ B).getLastD d = B.getLastD d := by
  rw [List.getLastD_eq_getLast?, List.getLastD_eq_getLast?, List.getLast?_append]
  cases hB : B.getLast? with
  | none => exact absurd (List.getLast?_eq_none_iff.mp hB) h
  | some x => rfl

/-- Leaf extraction of a path built from any prefix and a slash-free leaf
recovers the leaf. -/
theorem leaf_key_append (p l : List Char) (h : '/' ∉ l) :
    leaf_key (String.mk (p ++ '/' :: l)) = String.mk l := by
  unfold leaf_key
  show String.mk ((rust_split '/' (p ++ '/' :: l)).getLastD []) = String.mk l
  rw [rust_split_append_sep '/' p l,
    getLastD_append_of_ne_nil [] (rust_split_ne_nil '/' l),
    rust_split_of_not_mem '/' h]
  simp

/-- C5: the Secret Set key of every stored parameter is the final path
segment of its name after splitting on `/` — concretely, leaf extraction
of `<any prefix>/<slash-free leaf>` gives the leaf, and a value stored at
any path whose leaf is `expo-access-token` is retrieved under
`expo-access-token`, whatever the prefix depth. -/
theorem claim_C5_leaf_key_round_trip :
    (∀ (p l : List Char), '/' ∉ l →
      leaf_key (String.mk (p ++ '/' :: l)) = String.mk l)
    ∧ (∀ (p : List Char) (v : String),
      secret_get
        (secrets_of_params
          [(some (String.mk (p ++ '/' :: "expo-access-token".data)), some v)])
        "expo-access-token" = some v) := by
  constructor
  · exact leaf_key_append
  · intro p v
    have hl : leaf_key (String.mk (p ++ '/' :: "expo-access-token".data)) =
        "expo-access-token" :=
      leaf_key_append p ("expo-access-token".data) (by decide)
    simp only [secrets_of_params, List.foldl_cons, List.foldl_nil, hl]
    rfl

/-- C5 witness: the source's own example path
`/expo-push-api/expo-access-token`. -/
theorem claim_C5_witness :
    leaf_key (String.mk ("/expo-push-api".data ++ '/' :: "expo-access-token".data)) =
      String.mk ("expo-access-token".data) :=
  claim_C5_leaf_key_round_trip.1 ("/expo-push-api".data)
    ("expo-access-token".data) (by decide)

/-- `extract_tokens` is the in-order map of the token field over exactly
the rows that have one. -/
theorem extract_tokens_filter :
    ∀ rows : List Json,
      extract_tokens rows =
        (rows.filter
            (fun r => ((json_index r "expo_push_token").as_str).isSome)).map
          (fun r => ((json_index r "expo_push_token").as_str).getD "") := by
  intro rows
  induction rows with
  | nil => rfl
  | cons r rows ih =>
    cases h : (json_index r "expo_push_token").as_str with
    | none =>
      rw [extract_tokens,
        List.filterMap_cons_none
          (f := fun row => (json_index row "expo_push_token").as_str) h,
        List.filter_cons]
      simp only [h, Option.isSome_none]
      exact ih
    | some s =>
      rw [extract_tokens,
        List.filterMap_cons_some
          (f := fun row => (json_index row "expo_push_token").as_str) h,
        List.filter_cons]
      simp only [h, Option.isSome_some, if_true, List.map_cons, Option.getD_some]
      exact congrArg (s :: ·) ih

/-- C6: a successful recipient query yields no error whatever the rows
look like; a row whose token field is absent or not a string contributes
zero tokens; and the resulting list is exactly the token-field values of
the rows that have one, in row order. -/
theorem claim_C6_token_extraction (env : Env) (rows : List Json)
    (hrows : env.supabase_rows = .ok rows) :
    fetch_expo_push_tokens env = .ok (extract_tokens rows)
    ∧ (∀ pre r post, rows = pre ++ r :: post →
        (json_index r "expo_push_token").as_str = none →
        extract_tokens rows = extract_tokens (pre ++ post))
    ∧ extract_tokens rows =
        (rows.filter
            (fun r => ((json_index r "expo_push_token").as_str).isSome)).map
          (fun r => ((json_index r "expo_push_token").as_str).getD "") := by
  refine ⟨by simp [fetch_expo_push_tokens, hrows],
    fun pre r post hr hnone => ?_, extract_tokens_filter rows⟩
  subst hr
  unfold extract_tokens
  rw [List.filterMap_append, List.filterMap_append,
    List.filterMap_cons_none
      (f := fun row => (json_index row "expo_push_token").as_str) hnone]

/-- C6 witness: `rows0` has one row with a token and one without; the
tokenless row contributes nothing. -/
theorem claim_C6_witness :
    extract_tokens rows0 =
      extract_tokens
        ([Json.obj [("expo_push_token", Json.str "ExponentPushToken[aaa]")]] ++ []) :=
  (claim_C6_token_extraction env0 rows0 rfl).2.1
    [Json.obj [("expo_push_token", Json.str "ExponentPushToken[aaa]")]]
    (Json.obj [("name", Json.str "nobody")]) [] rfl rfl

end ExpoPushApi
